import Mathlib

set_option maxRecDepth 4000

/-!
Shallow embedding of the brontes MEV pipeline pieces examined here, with theorems
about them.

The embedding covers:

* the optimistic CEX trade pricer of
  `crates/brontes-types/src/db/cex/trades/optimistic.rs`
  (direct pricing, the time-basket expansion loop, intermediary routing,
  the USDC/USDT volume bypass, and the bi-exponential trade weight);
* the old composer of `crates/poirot-inspect/src/daddy_inspector.rs`
  (the `replace_dep_filter` reduce step and the `compose_dep_filter` compose step);
* the new composer helpers of `crates/brontes-inspect/src/composer/utils.rs`
  (`pre_process` and `build_mev_header`);
* the pure configuration phase of `crates/bin/src/cli/run.rs`
  (`check_proper_range` and the `only_cex_dex` override in `RunArgs::execute`).

Conventions: exact rational arithmetic (the repository uses malachite `Rational`;
`f64` conversions happen only at the export boundary, spec section 1 and section 9,
and are kept as exact rationals here); `u64`, `u128` and `i128` are natural numbers
and integers, with explicit wrapping where the unchecked Rust arithmetic could wrap;
Rust panics are modelled with an explicit `Panic` error type; repository code that is
not under `src/` (only used there) is modelled from the specification and carries a
doc comment saying so.
-/

namespace Brontes

/-- Ethereum addresses, represented as natural numbers. -/
abbrev Address := Nat

/-- The USDC token address constant from brontes-types
(0xa0b86991c6218b36c1d19d4a2e9eb0ce3606eb48 on mainnet). No claim depends on the
numeric value of an address, only on the four constants being distinct, so small
distinct stand-ins are used to keep concrete evaluation cheap. -/
def USDC_ADDRESS : Address := 101

/-- The USDT token address constant from brontes-types
(0xdac17f958d2ee523a2206206994597c13d831ec7 on mainnet). -/
def USDT_ADDRESS : Address := 102

/-- The WETH token address constant from brontes-types
(0xc02aaa39b223fe8d0a0e5c4f27ead9083c756cc2 on mainnet). -/
def WETH_ADDRESS : Address := 103

/-- The DAI token address constant from brontes-types
(0x6b175474e89094c44da98b954eedeac495271d0f on mainnet). -/
def DAI_ADDRESS : Address := 104

/-- A directed token pair, `Pair(Address, Address)` in brontes-types.
Order carries directional meaning (spec section 3). -/
structure Pair where
  fst : Address
  snd : Address
  deriving DecidableEq, Repr

/-- Swapping the two sides of a pair (`Pair::flip`). -/
def Pair.flip (p : Pair) : Pair := ⟨p.snd, p.fst⟩

/-- The CEX venues named by the run command default
(`--cex-exchanges` default in `run.rs`). -/
inductive CexExchange where
  | Binance
  | Coinbase
  | Okex
  | BybitSpot
  | Kucoin
  deriving DecidableEq, Repr

/-- Trade direction used when resolving a pair against the stored trade streams. -/
inductive Direction where
  | Buy
  | Sell
  deriving DecidableEq, Repr

/-- One CEX trade record: venue, microsecond timestamp, exact rational price and
amount (spec section 3, entity CexTrade). -/
structure CexTrades where
  exchange : CexExchange
  timestamp : Nat
  price : ℚ
  amount : ℚ
  deriving DecidableEq, Repr

/-- Modelled from the spec: `CexTrades::adjust_for_direction` lives in the cex
trades module, which is not under `src/`. Spec section 4.3 step 1: trades found
for the pair itself are used with direction `Sell` unchanged, trades found for the
flipped pair are used with direction `Buy`, and "Flipping inverts price." -/
def CexTrades.adjust_for_direction (t : CexTrades) (d : Direction) : CexTrades :=
  match d with
  | Direction.Sell => t
  | Direction.Buy => { t with price := t.price⁻¹ }

/-- One trade recorded in an `ExchangePrice` result
(`OptimisticTrade` in brontes-types, fields as pushed in
`get_optimistic_direct`). -/
structure OptimisticTrade where
  volume : ℚ
  pair : Pair
  price : ℚ
  exchange : CexExchange
  timestamp : Nat
  deriving DecidableEq, Repr

/-- The calculated price together with the trades and pairs that produced it
(`ExchangePrice` in optimistic.rs, lines 35 to 43). -/
structure ExchangePrice where
  trades_used : List OptimisticTrade
  pairs : List Pair
  final_price : ℚ
  deriving DecidableEq, Repr

/-- The `impl Mul for ExchangePrice` of optimistic.rs lines 45 to 55: extend the
pair list, multiply the final prices, extend the trades list. -/
instance : Mul ExchangePrice :=
  ⟨fun a b =>
    { trades_used := a.trades_used ++ b.trades_used
      pairs := a.pairs ++ b.pairs
      final_price := a.final_price * b.final_price }⟩

/-- A maker price and a taker price (`MakerTaker` in optimistic.rs). -/
abbrev MakerTaker := ExchangePrice × ExchangePrice

/-- The per-pair sorted trade store `SortedTrades`: a map from pair to an index
pair plus the trade list, as consumed by `get_trades` (optimistic.rs
lines 321 to 357). -/
structure SortedTrades where
  data : List (Pair × ((Nat × Nat) × List CexTrades))
  deriving DecidableEq, Repr

/-- The trade data returned by `SortedTrades::get_trades`
(`OptimisticTradeData` in optimistic.rs lines 365 to 369). -/
structure OptimisticTradeData where
  indices : Nat × Nat
  trades : List CexTrades
  direction : Direction
  deriving DecidableEq, Repr

/-- The `get_trades` lookup of optimistic.rs lines 321 to 357: use the pair
itself with direction Sell, otherwise the flipped pair with direction Buy,
otherwise fail. -/
def SortedTrades.get_trades (st : SortedTrades) (pair : Pair) : Option OptimisticTradeData :=
  match (st.data.find? (fun e => e.1 == pair)).map (fun e => e.2) with
  | some td =>
    some ⟨td.1, td.2.map (fun t => t.adjust_for_direction Direction.Sell), Direction.Sell⟩
  | none =>
    match (st.data.find? (fun e => e.1 == pair.flip)).map (fun e => e.2) with
    | some td =>
      some ⟨td.1, td.2.map (fun t => t.adjust_for_direction Direction.Buy), Direction.Buy⟩
    | none => none

/-- The CEX trade window configuration, fields as read in `run.rs`
(`trade_config`, lines 263 to 273). All times are microseconds. -/
structure CexDexTradeConfig where
  time_window_after_us : Nat
  time_window_before_us : Nat
  optimistic_before_us : Nat
  optimistic_after_us : Nat
  quotes_fetch_time : Nat
  deriving DecidableEq, Repr

/-- The base execution quality percentile, optimistic.rs line 28. -/
def BASE_EXECUTION_QUALITY : Nat := 70

/-- The pre-scaling delta bound of the expansion loop, optimistic.rs line 30. -/
def PRE_SCALING_DIFF : Nat := 200000

/-- The expansion step of the expansion loop, optimistic.rs line 31. -/
def TIME_STEP : Nat := 100000

/-- Parameters standing for repository code the claims do not depend on and that
is not exactly representable here: `CexExchange::fees` (maker fee, taker fee; the
exchange enum implementation is not under `src/`) and the rational obtained by
`Rational::try_from_float_simplest` from the `f64` value of `calculate_weight`
(optimistic.rs lines 404 to 413; the floating-point evaluation has no exact
rational form). Every theorem below that touches them holds for every
instantiation of these parameters. -/
structure ExternEnv where
  fees : CexExchange → ℚ × ℚ
  weight : Nat → Nat → ℚ

/-- Per-exchange, per-pair execution quality percentiles, the `quality` argument
of `get_optimistic_direct`. -/
abbrev QualityMap := List (CexExchange × List (Pair × Nat))

/-- The quality percent map built at the top of `get_optimistic_direct`
(optimistic.rs lines 232 to 236): for each exchange, this pair's percentile, with
`BASE_EXECUTION_QUALITY` as the default. -/
def qualityPctFor (quality : Option QualityMap) (pair : Pair) :
    Option (List (CexExchange × Nat)) :=
  quality.map (fun m =>
    m.map (fun e =>
      (e.1, (((e.2.find? (fun pv => pv.1 == pair)).map (fun pv => pv.2)).getD
        BASE_EXECUTION_QUALITY))))

/-- Insertion of one element into a list sorted by a boolean comparison. -/
def insertCmp (le : α → α → Bool) (x : α) : List α → List α
  | [] => [x]
  | y :: ys => if le x y then x :: y :: ys else y :: insertCmp le x ys

/-- Insertion sort by a boolean comparison. -/
def insertionSortBy (le : α → α → Bool) : List α → List α
  | [] => []
  | x :: xs => insertCmp le x (insertionSortBy le xs)

/-- Absolute distance between a trade timestamp and the block timestamp. -/
def timeDelta (blockTs ts : Nat) : Nat :=
  if ts ≤ blockTs then blockTs - ts else ts - blockTs

/-- The listing of all exchange constructors, used to group trades per venue. -/
def allExchanges : List CexExchange :=
  [CexExchange.Binance, CexExchange.Coinbase, CexExchange.Okex,
   CexExchange.BybitSpot, CexExchange.Kucoin]

/-- Modelled from the spec: the quality filter inside `TimeBasketQueue`
(utils.rs is not under `src/`). Spec section 4.3 step 4: for each exchange, only
the top `quality_pct[exchange]` percent of trades by proximity to the block time
are kept, with `BASE_EXECUTION_QUALITY = 70` as the default for an exchange
absent from the map (spec section 9, open question 3). With no quality map at
all, all trades are kept. -/
def applyQuality (qp : Option (List (CexExchange × Nat))) (blockTs : Nat)
    (trades : List CexTrades) : List CexTrades :=
  match qp with
  | none => trades
  | some m =>
    (allExchanges.map (fun ex =>
      let pct := (((m.find? (fun e => e.1 == ex)).map (fun e => e.2)).getD
        BASE_EXECUTION_QUALITY)
      let exTrades := insertionSortBy
        (fun a b => decide (timeDelta blockTs a.timestamp ≤ timeDelta blockTs b.timestamp))
        (trades.filter (fun t => t.exchange == ex))
      exTrades.take (exTrades.length * pct / 100))).flatten

/-- One time basket: a time slice `[lo, hi]` together with the trades seeded
into it (spec section 4.3 step 2). -/
structure TimeBasket where
  lo : Nat
  hi : Nat
  trades : List CexTrades
  deriving DecidableEq, Repr

/-- The total trade amount of a list of trades. -/
def totalAmount (l : List CexTrades) : ℚ := (l.map CexTrades.amount).sum

/-- The cumulative volume of one basket. -/
def TimeBasket.volume (b : TimeBasket) : ℚ := totalAmount b.trades

/-- Modelled from the spec: `TimeBasketQueue` (utils.rs is not under `src/`).
Spec section 4.3 steps 2 and 3: the time axis around the block time `blockTs` is
partitioned into baskets seeded with the trades falling inside them; the window
is `[blockTs - beforeDelta, blockTs + afterDelta]` and starts narrow around the
block time; baskets are kept nearest to the block time first. -/
structure TimeBasketQueue where
  allTrades : List CexTrades
  direction : Direction
  blockTs : Nat
  beforeDelta : Nat
  afterDelta : Nat
  baskets : List TimeBasket
  deriving DecidableEq, Repr

/-- The trades of `trades` whose timestamp lies in `[lo, hi]`. -/
def tradesInWindow (trades : List CexTrades) (lo hi : Nat) : List CexTrades :=
  trades.filter (fun t => decide (lo ≤ t.timestamp) && decide (t.timestamp ≤ hi))

/-- Modelled from the spec: `TimeBasketQueue::new` (utils.rs is not under
`src/`): store the quality-filtered trades, the direction and the block time;
the window starts with zero radius around the block time (spec section 4.3
step 2, "The queue starts with a narrow window around T"). -/
def TimeBasketQueue.new (td : OptimisticTradeData) (blockTs : Nat)
    (qp : Option (List (CexExchange × Nat))) : TimeBasketQueue :=
  { allTrades := applyQuality qp blockTs td.trades
    direction := td.direction
    blockTs := blockTs
    beforeDelta := 0
    afterDelta := 0
    baskets := [] }

/-- Modelled from the spec: `TimeBasketQueue::construct_time_baskets` (utils.rs
is not under `src/`): seed the initial basket with the trades inside the initial
window (spec section 4.3 step 2). -/
def TimeBasketQueue.construct_time_baskets (q : TimeBasketQueue) : TimeBasketQueue :=
  { q with
    baskets := [⟨q.blockTs - q.beforeDelta, q.blockTs + q.afterDelta,
      tradesInWindow q.allTrades (q.blockTs - q.beforeDelta) (q.blockTs + q.afterDelta)⟩] }

/-- The queue's cumulative basket volume (`baskets_queue.volume`). -/
def TimeBasketQueue.volume (q : TimeBasketQueue) : ℚ :=
  (q.baskets.map TimeBasket.volume).sum

/-- Modelled from the spec: `TimeBasketQueue::get_min_time_delta` (utils.rs is
not under `src/`): the smaller of the two window bound deltas from the block
timestamp. The argument is always the block timestamp at the call sites in
optimistic.rs, and the deltas are kept relative to `q.blockTs`. -/
def TimeBasketQueue.get_min_time_delta (q : TimeBasketQueue) (_ts : Nat) : Nat :=
  min q.beforeDelta q.afterDelta

/-- Modelled from the spec: `TimeBasketQueue::get_max_time_delta` (utils.rs is
not under `src/`): the larger of the two window bound deltas from the block
timestamp. -/
def TimeBasketQueue.get_max_time_delta (q : TimeBasketQueue) (_ts : Nat) : Nat :=
  max q.beforeDelta q.afterDelta

/-- Modelled from the spec: `TimeBasketQueue::expand_time_bounds` (utils.rs is
not under `src/`): widen the pre-block bound by `pre` and the post-block bound by
`post` microseconds, absorbing the trades of the two newly covered slices into
new baskets appended after the existing (nearer) ones (spec section 4.3 step 3,
"New trades falling in the widened window are absorbed into the queue"). -/
def TimeBasketQueue.expand_time_bounds (q : TimeBasketQueue) (pre post : Nat) :
    TimeBasketQueue :=
  let newBefore := q.beforeDelta + pre
  let newAfter := q.afterDelta + post
  let preBaskets : List TimeBasket :=
    if 0 < pre then
      [⟨q.blockTs - newBefore, q.blockTs - q.beforeDelta - 1,
        tradesInWindow q.allTrades (q.blockTs - newBefore) (q.blockTs - q.beforeDelta - 1)⟩]
    else []
  let postBaskets : List TimeBasket :=
    if 0 < post then
      [⟨q.blockTs + q.afterDelta + 1, q.blockTs + newAfter,
        tradesInWindow q.allTrades (q.blockTs + q.afterDelta + 1) (q.blockTs + newAfter)⟩]
    else []
  { q with
    beforeDelta := newBefore
    afterDelta := newAfter
    baskets := q.baskets ++ postBaskets ++ preBaskets }

/-- The `min_expand` computation of the expansion loop (optimistic.rs lines 251
to 254): expand the pre side by `TIME_STEP` exactly when the max time delta has
reached `PRE_SCALING_DIFF`, and by nothing otherwise. -/
def min_expand (q : TimeBasketQueue) (block_timestamp : Nat) : Nat :=
  if PRE_SCALING_DIFF ≤ q.get_max_time_delta block_timestamp then TIME_STEP else 0

/-- Fuel-indexed body of the `while` loop of `get_optimistic_direct`
(optimistic.rs lines 244 to 257): while the queue volume is below the requested
volume, stop if either bound reached its optimistic limit, otherwise expand by
`(min_expand, TIME_STEP)`. The fuel only bounds recursion; `loopFuel` below
always provides enough of it for the loop to reach its own exit condition. -/
def expansionLoopGo (cfg : CexDexTradeConfig) (volume : ℚ) (block_timestamp : Nat) :
    Nat → TimeBasketQueue → TimeBasketQueue
  | 0, q => q
  | fuel + 1, q =>
    if q.volume < volume then
      if cfg.optimistic_before_us ≤ q.get_min_time_delta block_timestamp ∨
          cfg.optimistic_after_us ≤ q.get_max_time_delta block_timestamp then q
      else
        expansionLoopGo cfg volume block_timestamp fuel
          (q.expand_time_bounds (min_expand q block_timestamp) TIME_STEP)
    else q

/-- Enough fuel for `expansionLoopGo`: the post bound grows by `TIME_STEP` every
iteration, so after this many steps the after-limit check fires. -/
def loopFuel (cfg : CexDexTradeConfig) : Nat :=
  cfg.optimistic_after_us / TIME_STEP + 1

/-- The expansion loop of `get_optimistic_direct` (optimistic.rs lines 244 to
257), run with sufficient fuel. -/
def expansionLoop (cfg : CexDexTradeConfig) (volume : ℚ) (block_timestamp : Nat)
    (q : TimeBasketQueue) : TimeBasketQueue :=
  expansionLoopGo cfg volume block_timestamp (loopFuel cfg) q

/-- Modelled from the spec: the price-favorable ordering used when drawing
trades from a basket (spec section 4.3 step 5, "trades are chosen in
price-favorable order (lowest for buy, highest for sell)"). -/
def sortByPriceFavorable (dir : Direction) (l : List CexTrades) : List CexTrades :=
  match dir with
  | Direction.Buy => insertionSortBy (fun a b => decide (a.price ≤ b.price)) l
  | Direction.Sell => insertionSortBy (fun a b => decide (b.price ≤ a.price)) l

/-- Drawing trades from a sorted list until the fill target is met; the second
component is the unmet remainder (possibly negative before clamping). -/
def takeTrades : ℚ → List CexTrades → List CexTrades × ℚ
  | to_fill, [] => ([], to_fill)
  | to_fill, t :: ts =>
    if to_fill ≤ 0 then ([], to_fill)
    else
      let r := takeTrades (to_fill - t.amount) ts
      (t :: r.1, r.2)

/-- Modelled from the spec: `TimeBasket::get_trades_used` (utils.rs is not under
`src/`). Spec section 4.3 step 5: draw trades from the basket in price-favorable
order until the fill target is met; the unfilled remainder carries to the next
basket. -/
def TimeBasket.get_trades_used (b : TimeBasket) (dir : Direction) (to_fill : ℚ) :
    List CexTrades × ℚ :=
  let r := takeTrades to_fill (sortByPriceFavorable dir b.trades)
  (r.1, max r.2 0)

/-- The fill-assignment loop of `get_optimistic_direct` (optimistic.rs lines 259
to 271): each basket in queue order gets `basket.volume / queue.volume * volume`
plus the carried remainder, and the drawn trades are concatenated. Division by
zero yields zero here, so an all-empty queue selects nothing. -/
def fillBaskets (q : TimeBasketQueue) (volume : ℚ) : List CexTrades :=
  (q.baskets.foldl
    (fun acc basket =>
      let to_fill : ℚ := basket.volume / q.volume * volume + acc.2
      let r := basket.get_trades_used q.direction to_fill
      (acc.1 ++ r.1, r.2))
    (([] : List CexTrades), (0 : ℚ))).1

/-- The trade-selection part of `get_optimistic_direct` (optimistic.rs lines 232
to 271): quality resolution, trade lookup, basket construction, the expansion
loop, and the fill assignment. Fails exactly when `get_trades` fails. -/
def directSelection (cfg : CexDexTradeConfig) (st : SortedTrades) (block_timestamp : Nat)
    (pair : Pair) (volume : ℚ) (quality : Option QualityMap) : Option (List CexTrades) :=
  (st.get_trades pair).map (fun td =>
    let q := (TimeBasketQueue.new td block_timestamp
      (qualityPctFor quality pair)).construct_time_baskets
    let q := expansionLoop cfg volume block_timestamp q
    fillBaskets q volume)

/-- Accumulator of the VWAP loop of `get_optimistic_direct` (optimistic.rs lines
273 to 297). -/
structure VwapAcc where
  vxp_maker : ℚ
  vxp_taker : ℚ
  trade_volume : ℚ
  trade_volume_weight : ℚ
  optimistic_trades : List OptimisticTrade
  deriving DecidableEq, Repr

/-- The zero accumulator of the VWAP loop. -/
def vwapInit : VwapAcc := ⟨0, 0, 0, 0, []⟩

/-- One step of the VWAP loop of `get_optimistic_direct` (optimistic.rs lines
280 to 297): weight the trade, add price times fee complement times amount times
weight to the maker and taker sums, and record the trade. -/
def vwapStep (env : ExternEnv) (pair : Pair) (block_timestamp : Nat)
    (acc : VwapAcc) (trade : CexTrades) : VwapAcc :=
  let weight := env.weight block_timestamp trade.timestamp
  let m_fee := (env.fees trade.exchange).1
  let t_fee := (env.fees trade.exchange).2
  { vxp_maker := acc.vxp_maker + trade.price * (1 - m_fee) * trade.amount * weight
    vxp_taker := acc.vxp_taker + trade.price * (1 - t_fee) * trade.amount * weight
    trade_volume := acc.trade_volume + trade.amount
    trade_volume_weight := acc.trade_volume_weight + trade.amount * weight
    optimistic_trades := acc.optimistic_trades ++
      [⟨trade.amount, pair, trade.price, trade.exchange, trade.timestamp⟩] }

/-- The direct pricer `SortedTrades::get_optimistic_direct` (optimistic.rs lines
215 to 319): select trades, run the VWAP loop, fail on insufficient volume when
`bypass_vol` is not set, fail on a zero selected volume, and otherwise return
the maker and taker `ExchangePrice`. -/
def get_optimistic_direct (env : ExternEnv) (cfg : CexDexTradeConfig) (st : SortedTrades)
    (block_timestamp : Nat) (pair : Pair) (volume : ℚ) (bypass_vol : Bool)
    (quality : Option QualityMap) : Option MakerTaker :=
  match directSelection cfg st block_timestamp pair volume quality with
  | none => none
  | some trades_used =>
    let acc := trades_used.foldl (vwapStep env pair block_timestamp) vwapInit
    if acc.trade_volume < volume ∧ bypass_vol = false then none
    else if acc.trade_volume = 0 then none
    else
      some
        ({ trades_used := acc.optimistic_trades, pairs := [pair],
           final_price := acc.vxp_maker / acc.trade_volume_weight },
         { trades_used := acc.optimistic_trades, pairs := [pair],
           final_price := acc.vxp_taker / acc.trade_volume_weight })

/-- The stable-pair test applied to each leg inside
`get_optimistic_via_intermediary` (optimistic.rs lines 170 to 173 and 189 to
192): the leg pair is USDC/USDT in either order. -/
def is_usdc_usdt_pair (p : Pair) : Bool :=
  (p.fst == USDC_ADDRESS && p.snd == USDT_ADDRESS) ||
  (p.fst == USDT_ADDRESS && p.snd == USDC_ADDRESS)

/-- Modelled from the spec: `calculate_intermediary_addresses` is not under
`src/`. Spec section 9, open question 2 defines it as the whitelist
WETH, USDC, USDT, DAI plus any token appearing on both sides of the pair in the
current trade streams. -/
def calculate_intermediary_addresses (st : SortedTrades) (p : Pair) : List Address :=
  let pairedWith := fun (a : Address) =>
    st.data.foldr
      (fun e acc =>
        if e.1.fst == a then e.1.snd :: acc
        else if e.1.snd == a then e.1.fst :: acc
        else acc) []
  ([WETH_ADDRESS, USDC_ADDRESS, USDT_ADDRESS, DAI_ADDRESS] ++
    (pairedWith p.fst).filter (fun t => (pairedWith p.snd).contains t)).dedup

/-- The closure applied to one candidate intermediary inside
`get_optimistic_via_intermediary` (optimistic.rs lines 161 to 211): price the
first leg `(pair.0, intermediary)` at the requested volume, the second leg
`(intermediary, pair.1)` at the requested volume times the first leg maker final
price, bypassing volume on a USDC/USDT leg, and compose the two legs with the
`ExchangePrice` multiplication. -/
def viaIntermediaryCandidate (env : ExternEnv) (cfg : CexDexTradeConfig)
    (st : SortedTrades) (block_timestamp : Nat) (pair : Pair) (volume : ℚ)
    (bypass_vol : Bool) (quality : Option QualityMap) (intermediary : Address) :
    Option MakerTaker :=
  let pair0 : Pair := ⟨pair.fst, intermediary⟩
  let pair1 : Pair := ⟨intermediary, pair.snd⟩
  match get_optimistic_direct env cfg st block_timestamp pair0 volume
      (bypass_vol || is_usdc_usdt_pair pair0) quality with
  | none => none
  | some first_leg =>
    let new_vol := volume * first_leg.1.final_price
    match get_optimistic_direct env cfg st block_timestamp pair1 new_vol
        (bypass_vol || is_usdc_usdt_pair pair1) quality with
    | none => none
    | some second_leg =>
      some (first_leg.1 * second_leg.1, first_leg.2 * second_leg.2)

/-- The `Iterator::max_by_key` of the Rust standard library specialised to a
rational key: the last element of maximal key, or none on an empty list. -/
def maxByKey (f : α → ℚ) : List α → Option α
  | [] => none
  | x :: xs =>
    match maxByKey f xs with
    | none => some x
    | some m => if f m < f x then some x else some m

/-- The intermediary router `SortedTrades::get_optimistic_via_intermediary`
(optimistic.rs lines 148 to 213): filter-map the candidate closure over the
candidate intermediaries and keep the route of maximal maker final price. -/
def get_optimistic_via_intermediary (env : ExternEnv) (cfg : CexDexTradeConfig)
    (st : SortedTrades) (block_timestamp : Nat) (pair : Pair) (volume : ℚ)
    (bypass_vol : Bool) (quality : Option QualityMap) : Option MakerTaker :=
  maxByKey (fun a => a.1.final_price)
    ((calculate_intermediary_addresses st pair).filterMap
      (viaIntermediaryCandidate env cfg st block_timestamp pair volume bypass_vol quality))

/-- The entry point `SortedTrades::get_optimistic_price` (optimistic.rs lines 90
to 146): the identity pair prices at one with empty trade lists, otherwise
direct pricing with intermediary routing as the fallback. -/
def get_optimistic_price (env : ExternEnv) (cfg : CexDexTradeConfig)
    (st : SortedTrades) (block_timestamp : Nat) (pair : Pair) (volume : ℚ)
    (bypass_vol : Bool) (quality : Option QualityMap) : Option MakerTaker :=
  if pair.fst = pair.snd then
    some (⟨[], [pair], 1⟩, ⟨[], [pair], 1⟩)
  else
    match get_optimistic_direct env cfg st block_timestamp pair volume bypass_vol quality with
    | some r => some r
    | none =>
      get_optimistic_via_intermediary env cfg st block_timestamp pair volume bypass_vol quality

/-- The pre-block decay rate of `calculate_weight` (optimistic.rs line 371),
minus three times ten to the minus seven. -/
noncomputable def PRE_DECAY : ℝ := -(3 / 10 ^ 7)

/-- The post-block decay rate of `calculate_weight` (optimistic.rs line 372),
minus twelve times ten to the minus eight. -/
noncomputable def POST_DECAY : ℝ := -(12 / 10 ^ 8)

/-- The bi-exponential trade weight of optimistic.rs lines 404 to 413, with the
`f64` exponential idealised as the real exponential: pre-block trades decay with
`PRE_DECAY` over the distance to the block time, later trades with `POST_DECAY`. -/
noncomputable def calculate_weight (block_time trade_time : Nat) : ℝ :=
  if trade_time < block_time then
    Real.exp (PRE_DECAY * ((block_time - trade_time : Nat) : ℝ))
  else
    Real.exp (POST_DECAY * ((trade_time - block_time : Nat) : ℝ))

/-- The MEV classification tags (`MevType` in poirot-types, variants as matched
in daddy_inspector.rs lines 253 to 268). -/
inductive MevType where
  | Sandwich
  | Backrun
  | Jit
  | JitSandwich
  | CexDex
  | Liquidation
  | Unknown
  deriving DecidableEq, Repr

/-- One `(ClassifiedMev, Box<dyn SpecificMev>)` entry as the daddy inspector
filters see it: the filters only consult `mev_transaction_hashes()`, so a bundle
here is its hash list plus a tag telling bundles apart. Transaction hashes are
numbers. -/
structure MBundle where
  tag : Nat
  txHashes : List Nat
  deriving DecidableEq, Repr

/-- The per-type bundle groups `sorted_mev`, a map from `MevType` to the bundles
of that type (daddy_inspector.rs lines 215 to 225), as an association list with
distinct keys. -/
abbrev Groups := List (MevType × List MBundle)

/-- Rust panics of the daddy inspector filters, one constructor per panic site:
the explicit non-binary-composition panic of `compose_dep_filter`, the
`Option::unwrap` panics on a missing map key, and the `Vec::remove` panic on an
out-of-bounds index. -/
inductive Panic where
  | nonBinaryComposition
  | unwrapOnNone
  | indexOutOfBounds
  deriving DecidableEq, Repr

/-- The `HashMap::get` lookup on the bundle groups. -/
def mfind (m : Groups) (k : MevType) : Option (List MBundle) :=
  (m.find? (fun e => e.1 == k)).map (fun e => e.2)

/-- The `HashMap::remove` on the bundle groups: drop the entry of the key. -/
def merase (m : Groups) (k : MevType) : Groups :=
  m.eraseP (fun e => e.1 == k)

/-- In-place mutation of the vector stored under a key
(`HashMap::get_mut` followed by a vector edit). -/
def mupdate (m : Groups) (k : MevType) (f : List MBundle → List MBundle) : Groups :=
  m.map (fun e => if e.1 == k then (e.1, f e.2) else e)

/-- The `entry(key).or_default().push(b)` idiom on the bundle groups. -/
def mpush (m : Groups) (k : MevType) (b : MBundle) : Groups :=
  if (m.find? (fun e => e.1 == k)).isSome then
    mupdate m k (fun v => v ++ [b])
  else
    m ++ [(k, [b])]

/-- State threaded through the index-collection pass of `replace_dep_filter`:
the `remove_count` adjustments per dependency type and the collected
`(type, index)` removal list. Indices are integers because the Rust `usize`
arithmetic `i - adjustment` and `i + adjustment` is modelled exactly, with the
bounds check deferred to the removal pass. -/
structure RCState where
  counts : List (MevType × Nat)
  out : List (MevType × Int)
  deriving DecidableEq, Repr

/-- Lookup in the `remove_count` map, zero when absent. -/
def countGet (c : List (MevType × Nat)) (k : MevType) : Nat :=
  ((c.find? (fun e => e.1 == k)).map (fun e => e.2)).getD 0

/-- Increment in the `remove_count` map (`entry(dep).or_default()` then
`*adjustment += 1`). -/
def countInc (c : List (MevType × Nat)) (k : MevType) : List (MevType × Nat) :=
  if (c.find? (fun e => e.1 == k)).isSome then
    c.map (fun e => if e.1 == k then (e.1, e.2 + 1) else e)
  else
    c ++ [(k, 1)]

/-- The inner scan of `replace_dep_filter` over one dependency group
(daddy_inspector.rs lines 300 to 321): for each dependency bundle, if its hash
list equals the head bundle hashes record index `i - adjustment`, else if any of
its hashes occurs among the head hashes record index `i + adjustment`; either
way bump the adjustment. -/
def scanDep (hashes : List Nat) (dep : MevType) (depMev : List MBundle)
    (st : RCState) : RCState :=
  depMev.enum.foldl
    (fun st e =>
      let i := e.1
      let db := e.2
      if db.txHashes == hashes then
        let adjustment := countGet st.counts dep
        { counts := countInc st.counts dep
          out := st.out ++ [(dep, (i : Int) - (adjustment : Int))] }
      else if db.txHashes.any (fun h => hashes.contains h) then
        let adjustment := countGet st.counts dep
        { counts := countInc st.counts dep
          out := st.out ++ [(dep, (i : Int) + (adjustment : Int))] }
      else st)
    st

/-- The removal pass of `replace_dep_filter` (daddy_inspector.rs lines 327 to
329): `sorted_mev.get_mut(&mev_type).unwrap().remove(index)` for each collected
entry; a missing key panics on the unwrap and an index outside the current
vector panics inside `Vec::remove`. -/
def applyRemovals : List (MevType × Int) → Groups → Except Panic Groups
  | [], m => Except.ok m
  | (k, idx) :: rest, m =>
    match mfind m k with
    | none => Except.error Panic.unwrapOnNone
    | some l =>
      if 0 ≤ idx ∧ idx.toNat < l.length then
        applyRemovals rest (mupdate m k (fun v => v.eraseIdx idx.toNat))
      else Except.error Panic.indexOutOfBounds

/-- The reduce step `DaddyInspector::replace_dep_filter` (daddy_inspector.rs
lines 285 to 330): for each head bundle collect the matching dependency bundles
with the adjusted indices, then remove them one by one. -/
def replace_dep_filter (head_mev_type : MevType) (deps : List MevType)
    (sorted_mev : Groups) : Except Panic Groups :=
  match mfind sorted_mev head_mev_type with
  | none => Except.ok sorted_mev
  | some head_mev =>
    let st := head_mev.foldl
      (fun st hb =>
        deps.foldl
          (fun st dep =>
            match mfind sorted_mev dep with
            | none => st
            | some dep_mev => scanDep hb.txHashes dep dep_mev st)
          st)
      ⟨[], []⟩
    applyRemovals st.out sorted_mev

/-- Index-carrying helper of `findWithIdx`. -/
def findWithIdxGo (p : MBundle → Bool) (i : Nat) : List MBundle → Option (Nat × MBundle)
  | [] => none
  | x :: xs => if p x then some (i, x) else findWithIdxGo p (i + 1) xs

/-- The `iter().enumerate().find(..)` of `compose_dep_filter`
(daddy_inspector.rs lines 358 to 367): first index and element satisfying the
predicate. -/
def findWithIdx (p : MBundle → Bool) (l : List MBundle) : Option (Nat × MBundle) :=
  findWithIdxGo p 0 l

/-- The per-bundle loop of `compose_dep_filter` (daddy_inspector.rs lines 355
to 390): for each bundle of the first dependency type, find the first bundle of
the second type whose hash list equals it or shares any hash with it; on a match
remove that bundle and push the composed bundle under the parent type, otherwise
push the first-type bundle back. -/
def composeGo (compose : MBundle → MBundle → MBundle) (parent t0 t1 : MevType) :
    List MBundle → Groups → Groups
  | [], m => m
  | s :: rest, m =>
    let one_txes := (mfind m t1).getD []
    match findWithIdx
        (fun d => d.txHashes == s.txHashes || s.txHashes.any (fun a => d.txHashes.contains a))
        one_txes with
    | some im =>
      let m := mupdate m t1 (fun v => v.eraseIdx im.1)
      composeGo compose parent t0 t1 rest (mpush m parent (compose s im.2))
    | none =>
      composeGo compose parent t0 t1 rest (mpush m t0 s)

/-- The compose step `DaddyInspector::compose_dep_filter` (daddy_inspector.rs
lines 332 to 391): panic unless the dependency list has exactly two MEV types,
take the whole group of the first type out of the map (unwrap), require the
group of the second type to exist (unwrap), and run the per-bundle compose
loop. -/
def compose_dep_filter (compose : MBundle → MBundle → MBundle)
    (parent_mev_type : MevType) (composable_types : List MevType)
    (sorted_mev : Groups) : Except Panic Groups :=
  match composable_types with
  | [t0, t1] =>
    match mfind sorted_mev t0 with
    | none => Except.error Panic.unwrapOnNone
    | some zero_txes =>
      let m := merase sorted_mev t0
      match mfind m t1 with
      | none => Except.error Panic.unwrapOnNone
      | some _ => Except.ok (composeGo compose parent_mev_type t0 t1 zero_txes m)
  | _ => Except.error Panic.nonBinaryComposition

/-- Modelled from the spec: `compose_sandwich_jit` lives in poirot-types, which
is not under `src/`. Spec section 8, composition monotonicity: the JitSandwich
hash set is the union of the consumed Sandwich and Jit hash sets. -/
def compose_sandwich_jit (s j : MBundle) : MBundle :=
  { tag := s.tag
    txHashes := s.txHashes ++ j.txHashes.filter (fun h => !(s.txHashes.contains h)) }

/-- The compose-function table `get_compose_fn` (daddy_inspector.rs lines 69 to
74): only `JitSandwich` has a compose function. -/
def get_compose_fn (mev_type : MevType) : Option (MBundle → MBundle → MBundle) :=
  match mev_type with
  | MevType.JitSandwich => some compose_sandwich_jit
  | _ => none

/-- The `mev_composability!` table `MEV_FILTER` (daddy_inspector.rs lines 60 to
65): reduce Sandwich over Backrun and Jit first, then try composing JitSandwich
from Sandwich and Jit. -/
def MEV_FILTER : List (MevType × Option (MBundle → MBundle → MBundle) × List MevType) :=
  [(MevType.Sandwich, get_compose_fn MevType.Sandwich, [MevType.Backrun, MevType.Jit]),
   (MevType.JitSandwich, get_compose_fn MevType.JitSandwich, [MevType.Sandwich, MevType.Jit])]

/-- Gas bookkeeping of one transaction root (`GasDetails` in brontes-types,
fields as read by the two composers). -/
structure GasDetails where
  coinbase_transfer : Option Nat
  priority_fee : Nat
  gas_used : Nat
  effective_gas_price : Nat
  deriving DecidableEq, Repr

/-- One transaction root of the block tree, as consulted by `pre_process`. -/
structure TxRoot where
  gas_details : GasDetails
  deriving DecidableEq, Repr

/-- The block header data consulted by `pre_process`. -/
structure TreeHeader where
  beneficiary : Address
  deriving DecidableEq, Repr

/-- The block tree as consulted by `pre_process` (composer/utils.rs lines 29 to
48): a header plus the transaction roots. -/
structure BlockTree where
  header : TreeHeader
  tx_roots : List TxRoot
  deriving DecidableEq, Repr

/-- The joined block metadata consulted by `build_mev_header`
(`MetadataCombined`): block identity, the ETH price as an exact rational, and
the proposer data. -/
structure MetadataCombined where
  block_hash : Nat
  block_num : Nat
  eth_prices : ℚ
  proposer_fee_recipient : Option Address
  proposer_mev_reward : Option Nat
  deriving DecidableEq, Repr

/-- One emitted bundle as `build_mev_header` consumes it: the `bribe()` and
`priority_fee_paid()` accessors of its data (both `u128`). -/
structure Bundle where
  bribe : Nat
  priority_fee_paid : Nat
  deriving DecidableEq, Repr

/-- Carrier for the possible-MEV collection passed through `build_mev_header`
untouched. -/
structure PossibleMevCollection where
  entries : Nat
  deriving DecidableEq, Repr

/-- Wrapping `u128` reduction. -/
def wrapU128 (n : Nat) : Nat := n % 2 ^ 128

/-- The `as i128` cast of a `u128` value: reduce and reinterpret the high range
as negative. -/
def u128ToI128 (n : Nat) : Int :=
  if n % 2 ^ 128 < 2 ^ 127 then ((n % 2 ^ 128 : Nat) : Int)
  else ((n % 2 ^ 128 : Nat) : Int) - 2 ^ 128

/-- Wrapping `i128` reduction, applied after each unchecked `i128` operation. -/
def wrapI128 (z : Int) : Int := (z + 2 ^ 127) % 2 ^ 128 - 2 ^ 127

/-- The `Rational::from_signeds` constructor: the exact quotient. -/
def fromSigneds (n d : Int) : ℚ := (n : ℚ) / (d : ℚ)

/-- The `u128::to_scaled_rational(d)` helper: the value divided by ten to the
`d`. -/
def toScaledRational (n : Nat) (d : Nat) : ℚ := (n : ℚ) / (10 ^ d : ℚ)

/-- The block preprocessing result of the new composer (composer/utils.rs lines
16 to 21). -/
structure BlockPreprocessing where
  meta_data : MetadataCombined
  cumulative_gas_used : Nat
  cumulative_priority_fee : Nat
  builder_address : Address
  deriving DecidableEq, Repr

/-- The new composer `pre_process` (composer/utils.rs lines 29 to 48): the
builder address from the header, the wrapping `u128` sum of `gas_used` over the
transaction roots, and the wrapping `u128` sum of `priority_fee` over the
transaction roots (the base fee is burnt and excluded). -/
def pre_process (tree : BlockTree) (meta_data : MetadataCombined) : BlockPreprocessing :=
  { meta_data := meta_data
    cumulative_gas_used :=
      tree.tx_roots.foldl (fun acc root => wrapU128 (acc + root.gas_details.gas_used)) 0
    cumulative_priority_fee :=
      tree.tx_roots.foldl (fun acc root => wrapU128 (acc + root.gas_details.priority_fee)) 0
    builder_address := tree.header.beneficiary }

/-- The produced MEV block header (`MevBlock`), with the fields written by
`build_mev_header` (composer/utils.rs lines 79 to 115). The `f64` fields of the
Rust struct are carried as the exact rationals they round; rounding happens only
at the export boundary (spec sections 1 and 9). -/
structure MevBlock where
  block_hash : Nat
  block_number : Nat
  mev_count : Nat
  eth_price : ℚ
  cumulative_gas_used : Nat
  cumulative_priority_fee : Nat
  total_bribe : Nat
  cumulative_mev_priority_fee_paid : Nat
  builder_address : Address
  builder_eth_profit : ℚ
  builder_profit_usd : ℚ
  proposer_fee_recipient : Option Address
  proposer_mev_reward : Option Nat
  proposer_profit_usd : Option ℚ
  cumulative_mev_profit_usd : ℚ
  possible_mev : PossibleMevCollection
  deriving DecidableEq, Repr

/-- The new composer `build_mev_header` (composer/utils.rs lines 52 to 116):
fold total bribe and total mev priority fee over the emitted bundles with
wrapping `u128` additions, compute
`builder_eth_profit = (total_bribe + cumulative_priority_fee - proposer_mev_reward) / 10^18`
as an exact rational with the unchecked `i128` casts and operations wrapped, a
missing proposer reward counting as zero, and fill the header. -/
def build_mev_header (metadata : MetadataCombined) (pre_processing : BlockPreprocessing)
    (possible_mev : PossibleMevCollection) (orchestra_data : List Bundle) : MevBlock :=
  let totals := orchestra_data.foldl
    (fun acc bundle =>
      (wrapU128 (acc.1 + bundle.bribe), wrapU128 (acc.2 + bundle.priority_fee_paid)))
    ((0 : Nat), (0 : Nat))
  let total_bribe := totals.1
  let cum_mev_priority_fee_paid := totals.2
  let builder_eth_profit := fromSigneds
    (wrapI128
      (wrapI128 (u128ToI128 total_bribe + u128ToI128 pre_processing.cumulative_priority_fee) -
        u128ToI128 ((metadata.proposer_mev_reward).getD 0)))
    (10 ^ 18)
  { block_hash := pre_processing.meta_data.block_hash
    block_number := pre_processing.meta_data.block_num
    mev_count := 0
    eth_price := pre_processing.meta_data.eth_prices
    cumulative_gas_used := pre_processing.cumulative_gas_used
    cumulative_priority_fee := pre_processing.cumulative_priority_fee
    total_bribe := total_bribe
    cumulative_mev_priority_fee_paid := cum_mev_priority_fee_paid
    builder_address := pre_processing.builder_address
    builder_eth_profit := builder_eth_profit
    builder_profit_usd := builder_eth_profit * pre_processing.meta_data.eth_prices
    proposer_fee_recipient := pre_processing.meta_data.proposer_fee_recipient
    proposer_mev_reward :=
      (pre_processing.meta_data.proposer_mev_reward).map (fun r => r / 10 ^ 18)
    proposer_profit_usd :=
      (pre_processing.meta_data.proposer_mev_reward).map
        (fun r => toScaledRational r 18 * pre_processing.meta_data.eth_prices)
    cumulative_mev_profit_usd :=
      toScaledRational (cum_mev_priority_fee_paid + total_bribe) 18 *
        pre_processing.meta_data.eth_prices
    possible_mev := possible_mev }

/-- Rewriting every effective gas price of a tree through a function, leaving
every other gas detail alone. Used to state that the cumulative priority fee has
no base-fee component. -/
def mapEffectiveGasPrice (g : Nat → Nat) (tree : BlockTree) : BlockTree :=
  { tree with
    tx_roots := tree.tx_roots.map (fun root =>
      { root with gas_details :=
        { root.gas_details with
          effective_gas_price := g root.gas_details.effective_gas_price } }) }

/-- The inspector names of the `--inspectors` flag (`Inspectors` in
brontes-inspect, the variants consulted in run.rs lines 159 to 171). -/
inductive Inspectors where
  | CexDex
  | CexDexMarkout
  | Sandwich
  | Jit
  | AtomicArb
  | Liquidation
  deriving DecidableEq, Repr

/-- The configuration error of the run command startup checks. -/
inductive ConfigError where
  | badRange
  deriving DecidableEq, Repr

/-- The run command arguments (`RunArgs` in run.rs lines 26 to 85), restricted
to the fields its pure configuration phase reads. -/
structure RunArgs where
  start_block : Option Nat
  end_block : Option Nat
  inspectors : Option (List Inspectors)
  force_dex_pricing : Bool
  force_no_dex_pricing : Bool
  deriving DecidableEq, Repr

/-- The range check `RunArgs::check_proper_range` (run.rs lines 254 to 261):
error exactly when both blocks are given and start exceeds end. -/
def check_proper_range (a : RunArgs) : Except ConfigError Unit :=
  match a.start_block, a.end_block with
  | some s, some e => if e < s then Except.error ConfigError.badRange else Except.ok ()
  | _, _ => Except.ok ()

/-- The `only_cex_dex` computation of `RunArgs::execute` (run.rs lines 159 to
166): with `--inspectors` supplied, true when the list is the single element
CexDex or contains CexDexMarkout; false when the flag is omitted. -/
def only_cex_dex (a : RunArgs) : Bool :=
  (a.inspectors.map (fun f =>
    (f.length == 1 && f.contains Inspectors.CexDex) || f.contains Inspectors.CexDexMarkout)
  ).getD false

/-- The flag override of `RunArgs::execute` (run.rs lines 168 to 171): set
`force_no_dex_pricing` when `only_cex_dex` holds. -/
def applyOnlyCexDex (a : RunArgs) : RunArgs :=
  if only_cex_dex a then { a with force_no_dex_pricing := true } else a

/-- The pure configuration phase of `RunArgs::execute` (run.rs lines 110 to
223): the range check followed by the `only_cex_dex` override. The surrounding
effectful steps (environment lookups, database and task setup) neither inspect
nor reject the two DEX pricing flags. -/
def executeConfigPhase (a : RunArgs) : Except ConfigError RunArgs :=
  match check_proper_range a with
  | Except.error e => Except.error e
  | Except.ok _ => Except.ok (applyOnlyCexDex a)

deriving instance DecidableEq for Except

/-- Concrete fixture: fee-free exchanges and unit weights. -/
def fixEnv : ExternEnv := ⟨fun _ => (0, 0), fun _ _ => 1⟩

/-- Concrete fixture: a trade window configuration with optimistic bounds of
200000 and 300000 microseconds. -/
def fixCfg : CexDexTradeConfig := ⟨6000000, 3000000, 200000, 300000, 0⟩

/-- Concrete fixture: a block timestamp in microseconds. -/
def fixT : Nat := 1700000000000000

/-- Concrete fixture: a token address. -/
def fixA : Address := 1000

/-- Concrete fixture: another token address. -/
def fixB : Address := 2000

/-- Concrete fixture: trade streams for the two legs of an intermediary route
through WETH. -/
def fixSt : SortedTrades :=
  ⟨[(⟨fixA, WETH_ADDRESS⟩, ((0, 0), [⟨CexExchange.Binance, fixT, 3, 2⟩])),
    (⟨WETH_ADDRESS, fixB⟩, ((0, 0), [⟨CexExchange.Binance, fixT, 7, 5⟩]))]⟩

/-- Concrete fixture: a pair present in the store with an empty trade stream. -/
def fixStEmpty : SortedTrades := ⟨[(⟨fixA, fixB⟩, ((0, 0), []))]⟩

/-- Concrete fixture: a USDC/USDT trade stream holding total amount two. -/
def fixStStable : SortedTrades :=
  ⟨[(⟨USDC_ADDRESS, USDT_ADDRESS⟩, ((0, 0), [⟨CexExchange.Coinbase, fixT, 1, 2⟩]))]⟩

/-- Concrete fixture: a configuration whose optimistic windows are zero, so the
expansion loop stops at once. -/
def fixCfg0 : CexDexTradeConfig := ⟨0, 0, 0, 0, 0⟩

/-- Concrete fixture: the composed maker leg of the route through WETH on
`fixSt` (two trades, the two leg pairs, final price twenty-one). -/
def fixMaker : ExchangePrice :=
  ⟨[⟨2, ⟨fixA, WETH_ADDRESS⟩, 3, CexExchange.Binance, fixT⟩,
    ⟨5, ⟨WETH_ADDRESS, fixB⟩, 7, CexExchange.Binance, fixT⟩],
   [⟨fixA, WETH_ADDRESS⟩, ⟨WETH_ADDRESS, fixB⟩], 21⟩

/-- Concrete fixture: the composed taker leg, equal to the maker leg because the
fixture fees are zero. -/
def fixTaker : ExchangePrice :=
  ⟨[⟨2, ⟨fixA, WETH_ADDRESS⟩, 3, CexExchange.Binance, fixT⟩,
    ⟨5, ⟨WETH_ADDRESS, fixB⟩, 7, CexExchange.Binance, fixT⟩],
   [⟨fixA, WETH_ADDRESS⟩, ⟨WETH_ADDRESS, fixB⟩], 21⟩

/-- Concrete fixture: an empty basket queue whose window deltas are 100000
microseconds before and exactly `PRE_SCALING_DIFF` after the block time. -/
def fixQ0 : TimeBasketQueue := ⟨[], Direction.Sell, 1000000, 100000, 200000, []⟩

/-- Concrete fixture: a basket queue already holding volume two. -/
def fixQFull : TimeBasketQueue :=
  ⟨[], Direction.Sell, 1000000, 0, 0,
   [⟨1000000, 1000000, [⟨CexExchange.Binance, 1000000, 3, 2⟩]⟩]⟩

/-- Concrete fixture: a two-transaction block tree with priority fees five and
eleven, gas seven and thirteen. -/
def fixTree : BlockTree :=
  ⟨⟨777⟩, [⟨⟨none, 5, 7, 100⟩⟩, ⟨⟨none, 11, 13, 200⟩⟩]⟩

/-- Concrete fixture: block metadata with a two-ETH proposer reward. -/
def fixMeta : MetadataCombined := ⟨42, 43, 3, none, some 2000000000000000000⟩

/-- Concrete fixture: two emitted bundles with bribes one hundred and two
hundred. -/
def fixBundles : List Bundle := [⟨100, 3⟩, ⟨200, 4⟩]

theorem list_foldl_vwapStep_trade_volume (env : ExternEnv) (pair : Pair) (T : Nat) :
    ∀ (l : List CexTrades) (acc : VwapAcc),
      (l.foldl (vwapStep env pair T) acc).trade_volume = acc.trade_volume + totalAmount l := by
  intro l
  induction l with
  | nil => intro acc; simp [totalAmount]
  | cons t ts ih =>
    intro acc
    simp only [List.foldl_cons, ih, vwapStep, totalAmount, List.map_cons, List.sum_cons]
    ring

theorem maxByKey_eq_none {α : Type} (f : α → ℚ) :
    ∀ l : List α, maxByKey f l = none → l = [] := by
  intro l h
  cases l with
  | nil => rfl
  | cons a as =>
    rw [maxByKey] at h
    cases hm : maxByKey f as with
    | none => rw [hm] at h; exact absurd h (by simp)
    | some m =>
      rw [hm] at h
      dsimp only at h
      split at h <;> exact absurd h (by simp)

theorem maxByKey_mem {α : Type} (f : α → ℚ) :
    ∀ (l : List α) (x : α), maxByKey f l = some x → x ∈ l := by
  intro l
  induction l with
  | nil => intro x h; simp [maxByKey] at h
  | cons a as ih =>
    intro x h
    rw [maxByKey] at h
    cases hm : maxByKey f as with
    | none =>
      rw [hm] at h
      dsimp only at h
      simp only [Option.some.injEq] at h
      simp [← h]
    | some m =>
      rw [hm] at h
      dsimp only at h
      split at h
      · simp only [Option.some.injEq] at h
        simp [← h]
      · simp only [Option.some.injEq] at h
        exact List.mem_cons_of_mem a (ih x (h ▸ hm))

theorem maxByKey_isMax {α : Type} (f : α → ℚ) :
    ∀ (l : List α) (x : α), maxByKey f l = some x → ∀ y ∈ l, f y ≤ f x := by
  intro l
  induction l with
  | nil => intro x h; simp [maxByKey] at h
  | cons a as ih =>
    intro x h y hy
    rw [maxByKey] at h
    cases hm : maxByKey f as with
    | none =>
      have has : as = [] := maxByKey_eq_none f as hm
      subst has
      rw [hm] at h
      dsimp only at h
      simp only [Option.some.injEq] at h
      subst h
      rcases List.mem_singleton.mp hy with rfl
      exact le_refl _
    | some m =>
      rw [hm] at h
      dsimp only at h
      rcases List.mem_cons.mp hy with rfl | hy2
      · split at h
        · simp only [Option.some.injEq] at h
          subst h
          exact le_refl _
        · simp only [Option.some.injEq] at h
          subst h
          exact le_of_not_lt (by assumption)
      · have hym : f y ≤ f m := ih m hm y hy2
        split at h
        · simp only [Option.some.injEq] at h
          subst h
          exact hym.trans (le_of_lt (by assumption))
        · simp only [Option.some.injEq] at h
          subst h
          exact hym

theorem expansionLoopGo_stable (cfg : CexDexTradeConfig) (V : ℚ) (ts : Nat) :
    ∀ (fuel : Nat) (q : TimeBasketQueue),
      cfg.optimistic_after_us ≤ q.afterDelta + fuel * TIME_STEP →
      expansionLoopGo cfg V ts (fuel + 1) q = expansionLoopGo cfg V ts fuel q := by
  intro fuel
  induction fuel with
  | zero =>
    intro q h
    simp only [Nat.zero_add, expansionLoopGo]
    by_cases hv : q.volume < V
    · rw [if_pos hv]
      have hmax : cfg.optimistic_after_us ≤ q.get_max_time_delta ts := by
        simp only [TimeBasketQueue.get_max_time_delta]
        omega
      rw [if_pos (Or.inr hmax)]
    · rw [if_neg hv]
  | succ n ih =>
    intro q h
    conv_lhs => rw [expansionLoopGo]
    conv_rhs => rw [expansionLoopGo]
    by_cases hv : q.volume < V
    · rw [if_pos hv, if_pos hv]
      by_cases hb : cfg.optimistic_before_us ≤ q.get_min_time_delta ts ∨
          cfg.optimistic_after_us ≤ q.get_max_time_delta ts
      · rw [if_pos hb, if_pos hb]
      · rw [if_neg hb, if_neg hb]
        apply ih
        simp only [TimeBasketQueue.expand_time_bounds, TIME_STEP] at h ⊢
        omega
    · rw [if_neg hv, if_neg hv]

/-- Claim C1 (amended): in the Stage 2 compose pass, a Sandwich bundle is paired
with the FIRST Jit bundle whose transaction-hash list equals its own or shares
any hash with it; in particular when the groups hold exactly one Sandwich and
one Jit with identical transaction-hash lists, both originals are removed and
exactly one new JitSandwich bundle, their composition, is inserted; and
`compose_dep_filter` panics on any composition rule whose dependency list does
not have exactly two MEV types. -/
theorem claimC1 (compose : MBundle → MBundle → MBundle) (s j : MBundle) :
    (s.txHashes = j.txHashes →
      compose_dep_filter compose MevType.JitSandwich [MevType.Sandwich, MevType.Jit]
          [(MevType.Sandwich, [s]), (MevType.Jit, [j])] =
        Except.ok [(MevType.Jit, []), (MevType.JitSandwich, [compose s j])]) ∧
    (∀ (parent : MevType) (ctypes : List MevType) (m : Groups), ctypes.length ≠ 2 →
      compose_dep_filter compose parent ctypes m = Except.error Panic.nonBinaryComposition) := by
  constructor
  · intro hs
    simp [compose_dep_filter, mfind, merase, composeGo, findWithIdx, findWithIdxGo, hs,
      mupdate, mpush, List.eraseP]
  · intro parent ctypes m hlen
    match ctypes with
    | [] => rfl
    | [a] => rfl
    | [a, b] => simp at hlen
    | a :: b :: c :: t => rfl

/-- Witness for claim C1: concrete identical-hash Sandwich and Jit singletons
compose into one JitSandwich, and a one-element dependency list panics. -/
theorem claimC1_witness :
    ((⟨1, [10, 11, 12]⟩ : MBundle).txHashes = (⟨3, [10, 11, 12]⟩ : MBundle).txHashes) ∧
    compose_dep_filter compose_sandwich_jit MevType.JitSandwich
        [MevType.Sandwich, MevType.Jit]
        [(MevType.Sandwich, [⟨1, [10, 11, 12]⟩]), (MevType.Jit, [⟨3, [10, 11, 12]⟩])] =
      Except.ok [(MevType.Jit, []),
        (MevType.JitSandwich, [compose_sandwich_jit ⟨1, [10, 11, 12]⟩ ⟨3, [10, 11, 12]⟩])] ∧
    compose_dep_filter compose_sandwich_jit MevType.JitSandwich [MevType.Sandwich] [] =
      Except.error Panic.nonBinaryComposition :=
  ⟨rfl, (claimC1 compose_sandwich_jit ⟨1, [10, 11, 12]⟩ ⟨3, [10, 11, 12]⟩).1 rfl,
    (claimC1 compose_sandwich_jit ⟨1, []⟩ ⟨1, []⟩).2 MevType.JitSandwich [MevType.Sandwich] []
      (by decide)⟩

/-- Counterexample to claim C1 as stated: the Sandwich group holds one bundle
over hashes [10, 11, 12]; the Jit group holds an overlapping bundle over [10]
followed by a bundle over exactly [10, 11, 12]. The groups therefore contain a
Sandwich and a Jit with identical transaction-hash sets, but the compose step
pairs the Sandwich with the first, merely overlapping, Jit: the identical Jit
survives in the output, so the two members of the identical pair are not both
removed. -/
theorem claimC1_counterexample :
    compose_dep_filter compose_sandwich_jit MevType.JitSandwich
        [MevType.Sandwich, MevType.Jit]
        [(MevType.Sandwich, [⟨1, [10, 11, 12]⟩]),
         (MevType.Jit, [⟨2, [10]⟩, ⟨3, [10, 11, 12]⟩])] =
      Except.ok [(MevType.Jit, [⟨3, [10, 11, 12]⟩]),
        (MevType.JitSandwich, [⟨1, [10, 11, 12]⟩])] ∧
    ((⟨1, [10, 11, 12]⟩ : MBundle).txHashes = (⟨3, [10, 11, 12]⟩ : MBundle).txHashes) := by
  decide

/-- Claim C2 (code bug): on a block with one Sandwich over hashes [10, 11, 12]
and two Backrun bundles over the strict subsets [12] and [11], the reduce step
collects removal indices 0 and 2, because the overlap branch of
`replace_dep_filter` adds the running adjustment to the index instead of
subtracting it, and the second `Vec::remove` panics out of bounds instead of
removing the second subsumed Backrun. With a single subsumed Backrun the claim
behavior does hold: the Backrun is removed and the Sandwich retained. -/
theorem claimC2_eval :
    replace_dep_filter MevType.Sandwich [MevType.Backrun, MevType.Jit]
        [(MevType.Sandwich, [⟨1, [10, 11, 12]⟩]),
         (MevType.Backrun, [⟨2, [12]⟩, ⟨3, [11]⟩])] =
      Except.error Panic.indexOutOfBounds ∧
    replace_dep_filter MevType.Sandwich [MevType.Backrun, MevType.Jit]
        [(MevType.Sandwich, [⟨1, [20, 21, 22]⟩]), (MevType.Backrun, [⟨2, [22]⟩])] =
      Except.ok [(MevType.Sandwich, [⟨1, [20, 21, 22]⟩]), (MevType.Backrun, [])] := by
  decide

/-- Claim C8 (amended): the run command startup performs no mutual-exclusion
validation of `force_dex_pricing` and `force_no_dex_pricing`. Whenever both
flags are set and the block range passes `check_proper_range`, the
configuration phase succeeds and hands the pipeline a configuration in which
both flags are still true (the `only_cex_dex` override can only set
`force_no_dex_pricing`, never clear either flag). -/
theorem claimC8 (a : RunArgs) (hd : a.force_dex_pricing = true)
    (hn : a.force_no_dex_pricing = true) (hr : check_proper_range a = Except.ok ()) :
    executeConfigPhase a = Except.ok (applyOnlyCexDex a) ∧
    (applyOnlyCexDex a).force_dex_pricing = true ∧
    (applyOnlyCexDex a).force_no_dex_pricing = true := by
  refine ⟨?_, ?_, ?_⟩
  · simp [executeConfigPhase, hr]
  · simp only [applyOnlyCexDex]
    split <;> simp [hd]
  · simp only [applyOnlyCexDex]
    split <;> simp [hn]

/-- Witness for claim C8 at a concrete argument record. -/
theorem claimC8_witness :
    executeConfigPhase ⟨some 1, some 2, none, true, true⟩ =
      Except.ok (applyOnlyCexDex ⟨some 1, some 2, none, true, true⟩) ∧
    (applyOnlyCexDex ⟨some 1, some 2, none, true, true⟩).force_dex_pricing = true ∧
    (applyOnlyCexDex ⟨some 1, some 2, none, true, true⟩).force_no_dex_pricing = true :=
  claimC8 ⟨some 1, some 2, none, true, true⟩ rfl rfl (by decide)

/-- Counterexample to claim C8 as stated: with `start_block = 1`,
`end_block = 2`, no inspectors flag and both DEX pricing flags set, the startup
configuration phase succeeds instead of failing with a configuration-validation
error. -/
theorem claimC8_counterexample :
    executeConfigPhase ⟨some 1, some 2, none, true, true⟩ =
      Except.ok ⟨some 1, some 2, none, true, true⟩ ∧
    ((⟨some 1, some 2, none, true, true⟩ : RunArgs).force_dex_pricing = true) ∧
    ((⟨some 1, some 2, none, true, true⟩ : RunArgs).force_no_dex_pricing = true) := by
  decide

/-- Claim C10: with `--inspectors` supplied, the run command forces
`force_no_dex_pricing` to true whenever the list contains CexDexMarkout or is
exactly the single element CexDex, whatever the user supplied for that flag;
with `--inspectors` omitted the flag is left as given. -/
theorem claimC10 :
    (∀ (a : RunArgs) (l : List Inspectors), a.inspectors = some l →
      (l.contains Inspectors.CexDexMarkout = true ∨
        (l.length = 1 ∧ l.contains Inspectors.CexDex = true)) →
      (applyOnlyCexDex a).force_no_dex_pricing = true) ∧
    (∀ a : RunArgs, a.inspectors = none →
      (applyOnlyCexDex a).force_no_dex_pricing = a.force_no_dex_pricing) := by
  constructor
  · intro a l hl hc
    have honly : only_cex_dex a = true := by
      rcases hc with h | ⟨h1, h2⟩
      · simp at h
        simp [only_cex_dex, hl, h]
      · simp at h2
        simp [only_cex_dex, hl, h1, h2]
    simp [applyOnlyCexDex, honly]
  · intro a ha
    simp [applyOnlyCexDex, only_cex_dex, ha]

/-- Witness for claim C10: a markout-containing list of length two forces the
flag; an absent list leaves a false flag false. -/
theorem claimC10_witness :
    (applyOnlyCexDex
      ⟨none, none, some [Inspectors.Sandwich, Inspectors.CexDexMarkout], false, false⟩
    ).force_no_dex_pricing = true ∧
    (applyOnlyCexDex ⟨none, none, none, false, false⟩).force_no_dex_pricing =
      (⟨none, none, none, false, false⟩ : RunArgs).force_no_dex_pricing :=
  ⟨claimC10.1 ⟨none, none, some [Inspectors.Sandwich, Inspectors.CexDexMarkout], false, false⟩
      [Inspectors.Sandwich, Inspectors.CexDexMarkout] rfl (Or.inl (by decide)),
   claimC10.2 ⟨none, none, none, false, false⟩ rfl⟩

theorem foldl_wrapU128_add {α : Type} (f : α → Nat) :
    ∀ (l : List α) (a : Nat), a < 2 ^ 128 →
      l.foldl (fun acc x => wrapU128 (acc + f x)) a = (a + (l.map f).sum) % 2 ^ 128 := by
  intro l
  induction l with
  | nil =>
    intro a ha
    simp only [List.foldl_nil, List.map_nil, List.sum_nil, Nat.add_zero]
    exact (Nat.mod_eq_of_lt ha).symm
  | cons x xs ih =>
    intro a ha
    simp only [List.foldl_cons, List.map_cons, List.sum_cons]
    rw [ih (wrapU128 (a + f x)) (Nat.mod_lt _ (by norm_num))]
    simp only [wrapU128]
    rw [Nat.mod_add_mod, Nat.add_assoc]

theorem foldl_bundleTotals :
    ∀ (l : List Bundle) (x y : Nat),
      l.foldl (fun acc b =>
        (wrapU128 (acc.1 + b.bribe), wrapU128 (acc.2 + b.priority_fee_paid))) (x, y) =
      (l.foldl (fun acc b => wrapU128 (acc + b.bribe)) x,
       l.foldl (fun acc b => wrapU128 (acc + b.priority_fee_paid)) y) := by
  intro l
  induction l with
  | nil => intro x y; rfl
  | cons b bs ih =>
    intro x y
    simp only [List.foldl_cons]
    exact ih _ _

theorem u128ToI128_of_lt (n : Nat) (h : n < 2 ^ 127) : u128ToI128 n = (n : Int) := by
  have h2 : n < 2 ^ 128 := lt_trans h (by norm_num)
  rw [u128ToI128, Nat.mod_eq_of_lt h2, if_pos h]

theorem wrapI128_eq_self (z : Int) (h1 : -(2 ^ 127) ≤ z) (h2 : z < 2 ^ 127) :
    wrapI128 z = z := by
  simp only [wrapI128]
  have h0 : (0 : Int) ≤ z + 2 ^ 127 := by linarith
  have hlt : z + 2 ^ 127 < 2 ^ 128 := by
    have he : (2 : Int) ^ 128 = 2 ^ 127 + 2 ^ 127 := by ring
    linarith [he]
  rw [Int.emod_eq_of_lt h0 hlt]
  ring

/-- Claim C6: for every block run through the new composer, under no-overflow
bounds on the `u128` and `i128` sums, the produced MevBlock has
`cumulative_gas_used` equal to the sum of `gas_used` over the transaction roots,
`cumulative_priority_fee` equal to the sum of `priority_fee` over the roots and
independent of every `effective_gas_price` (so free of any base-fee component),
`total_bribe` equal to the sum of bribes over the emitted bundles, and
`builder_eth_profit` equal to
(total bribe plus cumulative priority fee minus the proposer reward, a missing
reward counting as zero) divided by ten to the eighteen. -/
theorem claimC6 (tree : BlockTree) (meta : MetadataCombined)
    (possible : PossibleMevCollection) (bundles : List Bundle)
    (hg : (tree.tx_roots.map (fun r => r.gas_details.gas_used)).sum < 2 ^ 128)
    (hb : (bundles.map Bundle.bribe).sum +
        (tree.tx_roots.map (fun r => r.gas_details.priority_fee)).sum < 2 ^ 127)
    (hr : meta.proposer_mev_reward.getD 0 < 2 ^ 127) :
    (build_mev_header meta (pre_process tree meta) possible bundles).cumulative_gas_used =
        (tree.tx_roots.map (fun r => r.gas_details.gas_used)).sum ∧
    (build_mev_header meta (pre_process tree meta) possible bundles).cumulative_priority_fee =
        (tree.tx_roots.map (fun r => r.gas_details.priority_fee)).sum ∧
    (∀ g : Nat → Nat,
      (pre_process (mapEffectiveGasPrice g tree) meta).cumulative_priority_fee =
        (pre_process tree meta).cumulative_priority_fee) ∧
    (build_mev_header meta (pre_process tree meta) possible bundles).total_bribe =
        (bundles.map Bundle.bribe).sum ∧
    (build_mev_header meta (pre_process tree meta) possible bundles).builder_eth_profit =
        ((((bundles.map Bundle.bribe).sum : Nat) : ℚ) +
          (((tree.tx_roots.map (fun r => r.gas_details.priority_fee)).sum : Nat) : ℚ) -
          ((meta.proposer_mev_reward.getD 0 : Nat) : ℚ)) / 10 ^ 18 := by
  have hbr : (bundles.map Bundle.bribe).sum < 2 ^ 127 :=
    lt_of_le_of_lt (Nat.le_add_right _ _) hb
  have hpf : (tree.tx_roots.map (fun r => r.gas_details.priority_fee)).sum < 2 ^ 127 :=
    lt_of_le_of_lt (Nat.le_add_left _ _) hb
  have hbig : (2 : Nat) ^ 127 < 2 ^ 128 := by norm_num
  have egas : (pre_process tree meta).cumulative_gas_used =
      (tree.tx_roots.map (fun r => r.gas_details.gas_used)).sum := by
    simp only [pre_process]
    rw [foldl_wrapU128_add (fun r : TxRoot => r.gas_details.gas_used) tree.tx_roots 0
      (by norm_num)]
    rw [Nat.zero_add, Nat.mod_eq_of_lt hg]
  have epf : (pre_process tree meta).cumulative_priority_fee =
      (tree.tx_roots.map (fun r => r.gas_details.priority_fee)).sum := by
    simp only [pre_process]
    rw [foldl_wrapU128_add (fun r : TxRoot => r.gas_details.priority_fee) tree.tx_roots 0
      (by norm_num)]
    rw [Nat.zero_add, Nat.mod_eq_of_lt (lt_trans hpf hbig)]
  have etb : (bundles.foldl (fun acc bundle =>
      (wrapU128 (acc.1 + bundle.bribe), wrapU128 (acc.2 + bundle.priority_fee_paid)))
      ((0 : Nat), (0 : Nat))).1 = (bundles.map Bundle.bribe).sum := by
    rw [foldl_bundleTotals]
    simp only
    rw [foldl_wrapU128_add Bundle.bribe bundles 0 (by norm_num)]
    rw [Nat.zero_add, Nat.mod_eq_of_lt (lt_trans hbr hbig)]
  refine ⟨?_, ?_, ?_, ?_, ?_⟩
  · exact egas
  · exact epf
  · intro g
    simp only [pre_process, mapEffectiveGasPrice, List.foldl_map]
  · exact etb
  · have e5 : (build_mev_header meta (pre_process tree meta) possible
        bundles).builder_eth_profit =
        fromSigneds
          (wrapI128
            (wrapI128 (u128ToI128 ((bundles.foldl (fun acc bundle =>
                (wrapU128 (acc.1 + bundle.bribe), wrapU128 (acc.2 + bundle.priority_fee_paid)))
                ((0 : Nat), (0 : Nat))).1) +
              u128ToI128 ((pre_process tree meta).cumulative_priority_fee)) -
              u128ToI128 (meta.proposer_mev_reward.getD 0)))
          (10 ^ 18) := rfl
    rw [e5, etb, epf]
    rw [u128ToI128_of_lt _ hbr, u128ToI128_of_lt _ hpf, u128ToI128_of_lt _ hr]
    have h1 : (0 : Int) ≤ (((bundles.map Bundle.bribe).sum : Nat) : Int) := Nat.cast_nonneg _
    have h2 : (0 : Int) ≤
        ((((tree.tx_roots.map (fun r => r.gas_details.priority_fee)).sum : Nat)) : Int) :=
      Nat.cast_nonneg _
    have h3 : -(2 ^ 127 : Int) ≤ 0 := by norm_num
    have hz1hi : (((bundles.map Bundle.bribe).sum : Nat) : Int) +
        ((((tree.tx_roots.map (fun r => r.gas_details.priority_fee)).sum : Nat)) : Int) <
        2 ^ 127 := by
      exact_mod_cast hb
    have hz1lo : -(2 ^ 127 : Int) ≤ (((bundles.map Bundle.bribe).sum : Nat) : Int) +
        ((((tree.tx_roots.map (fun r => r.gas_details.priority_fee)).sum : Nat)) : Int) := by
      linarith
    rw [wrapI128_eq_self _ hz1lo hz1hi]
    have hrz : ((meta.proposer_mev_reward.getD 0 : Nat) : Int) < 2 ^ 127 := by
      exact_mod_cast hr
    have hrnn : (0 : Int) ≤ ((meta.proposer_mev_reward.getD 0 : Nat) : Int) :=
      Nat.cast_nonneg _
    have hz2lo : -(2 ^ 127 : Int) ≤ (((bundles.map Bundle.bribe).sum : Nat) : Int) +
        ((((tree.tx_roots.map (fun r => r.gas_details.priority_fee)).sum : Nat)) : Int) -
        ((meta.proposer_mev_reward.getD 0 : Nat) : Int) := by
      linarith
    have hz2hi : (((bundles.map Bundle.bribe).sum : Nat) : Int) +
        ((((tree.tx_roots.map (fun r => r.gas_details.priority_fee)).sum : Nat)) : Int) -
        ((meta.proposer_mev_reward.getD 0 : Nat) : Int) < 2 ^ 127 := by
      linarith
    rw [wrapI128_eq_self _ hz2lo hz2hi]
    simp only [fromSigneds, Int.cast_sub, Int.cast_add, Int.cast_natCast, Int.cast_pow,
      Int.cast_ofNat]

/-- Witness for claim C6 at a concrete block: two roots, two bundles, a two-ETH
proposer reward. -/
theorem claimC6_witness :
    (build_mev_header fixMeta (pre_process fixTree fixMeta) ⟨0⟩ fixBundles).cumulative_gas_used =
        (fixTree.tx_roots.map (fun r => r.gas_details.gas_used)).sum ∧
    (build_mev_header fixMeta (pre_process fixTree fixMeta) ⟨0⟩
        fixBundles).cumulative_priority_fee =
        (fixTree.tx_roots.map (fun r => r.gas_details.priority_fee)).sum ∧
    (pre_process (mapEffectiveGasPrice (fun _ => 0) fixTree) fixMeta).cumulative_priority_fee =
        (pre_process fixTree fixMeta).cumulative_priority_fee ∧
    (build_mev_header fixMeta (pre_process fixTree fixMeta) ⟨0⟩ fixBundles).total_bribe =
        (fixBundles.map Bundle.bribe).sum ∧
    (build_mev_header fixMeta (pre_process fixTree fixMeta) ⟨0⟩ fixBundles).builder_eth_profit =
        ((((fixBundles.map Bundle.bribe).sum : Nat) : ℚ) +
          (((fixTree.tx_roots.map (fun r => r.gas_details.priority_fee)).sum : Nat) : ℚ) -
          ((fixMeta.proposer_mev_reward.getD 0 : Nat) : ℚ)) / 10 ^ 18 :=
  ⟨(claimC6 fixTree fixMeta ⟨0⟩ fixBundles (by decide) (by decide) (by decide)).1,
   (claimC6 fixTree fixMeta ⟨0⟩ fixBundles (by decide) (by decide) (by decide)).2.1,
   (claimC6 fixTree fixMeta ⟨0⟩ fixBundles (by decide) (by decide) (by decide)).2.2.1
     (fun _ => 0),
   (claimC6 fixTree fixMeta ⟨0⟩ fixBundles (by decide) (by decide) (by decide)).2.2.2.1,
   (claimC6 fixTree fixMeta ⟨0⟩ fixBundles (by decide) (by decide) (by decide)).2.2.2.2⟩

/-- Claim C7: for a fixed block time, `calculate_weight` equals the pre-block
exponential with decay rate minus three times ten to the minus seven below the
block time, and the post-block exponential with decay rate minus twelve times
ten to the minus eight at or above it; it strictly increases as the trade time
approaches the block time from either side, and equals exactly one at the block
time. -/
theorem claimC7 (T t t1 t2 : Nat) :
    (t < T → calculate_weight T t = Real.exp (PRE_DECAY * ((T : ℝ) - (t : ℝ)))) ∧
    (T ≤ t → calculate_weight T t = Real.exp (POST_DECAY * ((t : ℝ) - (T : ℝ)))) ∧
    (t1 < t2 → t2 ≤ T → calculate_weight T t1 < calculate_weight T t2) ∧
    (T ≤ t1 → t1 < t2 → calculate_weight T t2 < calculate_weight T t1) ∧
    calculate_weight T T = 1 := by
  have hPREneg : PRE_DECAY < 0 := by norm_num [PRE_DECAY]
  have hPOSTneg : POST_DECAY < 0 := by norm_num [POST_DECAY]
  have hself : ∀ S : Nat, calculate_weight S S = 1 := by
    intro S
    rw [calculate_weight, if_neg (lt_irrefl S), Nat.sub_self]
    simp
  refine ⟨?_, ?_, ?_, ?_, hself T⟩
  · intro h
    rw [calculate_weight, if_pos h, Nat.cast_sub h.le]
  · intro h
    rw [calculate_weight, if_neg (not_lt.mpr h), Nat.cast_sub h]
  · intro h12 h2T
    have h1T : t1 < T := lt_of_lt_of_le h12 h2T
    rw [calculate_weight, if_pos h1T]
    rcases eq_or_lt_of_le h2T with heq | hlt
    · subst heq
      rw [hself t2]
      have hexp : Real.exp (PRE_DECAY * ((t2 - t1 : Nat) : ℝ)) < Real.exp 0 := by
        apply Real.exp_lt_exp.mpr
        apply mul_neg_of_neg_of_pos hPREneg
        exact_mod_cast Nat.sub_pos_of_lt h12
      simpa using hexp
    · rw [calculate_weight, if_pos hlt]
      apply Real.exp_lt_exp.mpr
      apply mul_lt_mul_of_neg_left _ hPREneg
      exact_mod_cast Nat.sub_lt_sub_left h1T h12
  · intro hT1 h12
    have hT2 : T ≤ t2 := le_trans hT1 (le_of_lt h12)
    rw [calculate_weight, if_neg (not_lt.mpr hT2), calculate_weight,
      if_neg (not_lt.mpr hT1)]
    apply Real.exp_lt_exp.mpr
    apply mul_lt_mul_of_neg_left _ hPOSTneg
    have : t1 - T < t2 - T := by omega
    exact_mod_cast this

/-- Witness for claim C7 at concrete times around a block time of ten. -/
theorem claimC7_witness :
    calculate_weight 10 7 = Real.exp (PRE_DECAY * ((10 : ℝ) - (7 : ℝ))) ∧
    calculate_weight 10 12 = Real.exp (POST_DECAY * ((12 : ℝ) - (10 : ℝ))) ∧
    calculate_weight 10 6 < calculate_weight 10 8 ∧
    calculate_weight 10 13 < calculate_weight 10 11 ∧
    calculate_weight 10 10 = 1 :=
  ⟨(claimC7 10 7 0 0).1 (by decide),
   (claimC7 10 12 0 0).2.1 (by decide),
   (claimC7 10 0 6 8).2.2.1 (by decide) (by decide),
   (claimC7 10 0 11 13).2.2.2.1 (by decide) (by decide),
   (claimC7 10 0 0 0).2.2.2.2⟩

/-- Claim C4: direct pricing returns no price whenever the total amount of the
selected trades is below the requested volume and `bypass_vol` is false; inside
intermediary routing a USDC/USDT leg in either order is priced with the volume
requirement bypassed, so such a leg with a nonzero selection never fails on
volume however large the requested volume is relative to its trade stream; and
the stable-pair test accepts exactly the two orders of USDC/USDT. -/
theorem claimC4 :
    (∀ (env : ExternEnv) (cfg : CexDexTradeConfig) (st : SortedTrades)
        (block_timestamp : Nat) (pair : Pair) (volume : ℚ) (quality : Option QualityMap),
      totalAmount ((directSelection cfg st block_timestamp pair volume quality).getD []) <
          volume →
      get_optimistic_direct env cfg st block_timestamp pair volume false quality = none) ∧
    (∀ (env : ExternEnv) (cfg : CexDexTradeConfig) (st : SortedTrades)
        (block_timestamp : Nat) (p : Pair) (volume : ℚ) (bypass_vol : Bool)
        (quality : Option QualityMap) (used : List CexTrades),
      is_usdc_usdt_pair p = true →
      directSelection cfg st block_timestamp p volume quality = some used →
      totalAmount used ≠ 0 →
      ∃ r, get_optimistic_direct env cfg st block_timestamp p volume
          (bypass_vol || is_usdc_usdt_pair p) quality = some r) ∧
    is_usdc_usdt_pair ⟨USDC_ADDRESS, USDT_ADDRESS⟩ = true ∧
    is_usdc_usdt_pair ⟨USDT_ADDRESS, USDC_ADDRESS⟩ = true := by
  refine ⟨?_, ?_, by decide, by decide⟩
  · intro env cfg st T pair V quality h
    cases hsel : directSelection cfg st T pair V quality with
    | none => simp [get_optimistic_direct, hsel]
    | some used =>
      rw [hsel] at h
      simp only [Option.getD_some] at h
      have htv : (used.foldl (vwapStep env pair T) vwapInit).trade_volume =
          totalAmount used := by
        rw [list_foldl_vwapStep_trade_volume]
        simp [vwapInit]
      simp only [get_optimistic_direct, hsel]
      split
      · rfl
      · rename_i hcond
        exact absurd ⟨htv.symm ▸ h, by trivial⟩ hcond
  · intro env cfg st T p V bypass quality used hsp hsel hne
    have hb : (bypass || is_usdc_usdt_pair p) = true := by simp [hsp]
    rw [hb]
    have htv : (used.foldl (vwapStep env p T) vwapInit).trade_volume =
        totalAmount used := by
      rw [list_foldl_vwapStep_trade_volume]
      simp [vwapInit]
    have h1 : ¬((used.foldl (vwapStep env p T) vwapInit).trade_volume < V ∧
        (true : Bool) = false) := by
      rintro ⟨-, hf⟩
      cases hf
    have h2 : ¬((used.foldl (vwapStep env p T) vwapInit).trade_volume = 0) := by
      rw [htv]
      exact hne
    exact ⟨_, by
      simp only [get_optimistic_direct, hsel]
      rw [if_neg h1, if_neg h2]⟩

/-- Witness for claim C4: an empty selection below the requested volume fails
without the bypass; a USDC/USDT stable leg holding total amount two succeeds at
a requested volume of five with the bypass engaged. -/
theorem claimC4_witness :
    (totalAmount ((directSelection fixCfg fixStEmpty fixT ⟨fixA, fixB⟩ 1 none).getD []) <
        (1 : ℚ)) ∧
    get_optimistic_direct fixEnv fixCfg fixStEmpty fixT ⟨fixA, fixB⟩ 1 false none = none ∧
    (is_usdc_usdt_pair ⟨USDC_ADDRESS, USDT_ADDRESS⟩ = true ∧
      directSelection fixCfg0 fixStStable fixT ⟨USDC_ADDRESS, USDT_ADDRESS⟩ 5 none =
        some [⟨CexExchange.Coinbase, fixT, 1, 2⟩] ∧
      totalAmount [(⟨CexExchange.Coinbase, fixT, 1, 2⟩ : CexTrades)] ≠ 0) ∧
    (∃ r, get_optimistic_direct fixEnv fixCfg0 fixStStable fixT ⟨USDC_ADDRESS, USDT_ADDRESS⟩ 5
        (false || is_usdc_usdt_pair ⟨USDC_ADDRESS, USDT_ADDRESS⟩) none = some r) :=
  ⟨by with_unfolding_all decide,
   claimC4.1 fixEnv fixCfg fixStEmpty fixT ⟨fixA, fixB⟩ 1 none (by with_unfolding_all decide),
   ⟨by decide, by with_unfolding_all rfl, by with_unfolding_all decide⟩,
   claimC4.2.1 fixEnv fixCfg0 fixStStable fixT ⟨USDC_ADDRESS, USDT_ADDRESS⟩ 5 false none
     [⟨CexExchange.Coinbase, fixT, 1, 2⟩] (by decide) (by with_unfolding_all rfl)
     (by with_unfolding_all decide)⟩

/-- Claim C9: whenever the total amount of the trades selected from the baskets
is zero, direct pricing returns none, whatever the `bypass_vol` flag says: the
stable-pair volume bypass never yields a price from an empty selection. -/
theorem claimC9 (env : ExternEnv) (cfg : CexDexTradeConfig) (st : SortedTrades)
    (block_timestamp : Nat) (pair : Pair) (volume : ℚ) (bypass_vol : Bool)
    (quality : Option QualityMap)
    (h : totalAmount ((directSelection cfg st block_timestamp pair volume quality).getD []) =
      0) :
    get_optimistic_direct env cfg st block_timestamp pair volume bypass_vol quality = none := by
  cases hsel : directSelection cfg st block_timestamp pair volume quality with
  | none => simp [get_optimistic_direct, hsel]
  | some used =>
    rw [hsel] at h
    simp only [Option.getD_some] at h
    have htv : (used.foldl (vwapStep env pair block_timestamp) vwapInit).trade_volume = 0 := by
      rw [list_foldl_vwapStep_trade_volume]
      simp [vwapInit, h]
    simp only [get_optimistic_direct, hsel]
    split
    · rfl
    · simp [htv]

/-- Witness for claim C9: a pair present in the store with an empty trade stream
selects nothing and prices to none even with the volume bypass set. -/
theorem claimC9_witness :
    (totalAmount ((directSelection fixCfg fixStEmpty fixT ⟨fixA, fixB⟩ 1 none).getD []) =
        (0 : ℚ)) ∧
    get_optimistic_direct fixEnv fixCfg fixStEmpty fixT ⟨fixA, fixB⟩ 1 true none = none :=
  ⟨by with_unfolding_all rfl,
   claimC9 fixEnv fixCfg fixStEmpty fixT ⟨fixA, fixB⟩ 1 true none
     (by with_unfolding_all rfl)⟩

/-- Claim C5 (amended): the expansion loop iterates only while the cumulative
basket volume is below the requested volume; it stops as soon as the window's
minimum time delta reaches the configured optimistic before bound or its maximum
time delta reaches the configured optimistic after bound; on each iteration, if
the maximum time delta has reached or exceeded `PRE_SCALING_DIFF` (the
comparison is non-strict, firing also at exactly 200000 microseconds) both
bounds expand by `TIME_STEP`, otherwise only the after bound expands by
`TIME_STEP`. -/
theorem claimC5 (cfg : CexDexTradeConfig) (volume : ℚ) (ts : Nat) (q : TimeBasketQueue) :
    (¬ q.volume < volume → expansionLoop cfg volume ts q = q) ∧
    (q.volume < volume →
      (cfg.optimistic_before_us ≤ q.get_min_time_delta ts ∨
        cfg.optimistic_after_us ≤ q.get_max_time_delta ts) →
      expansionLoop cfg volume ts q = q) ∧
    (q.volume < volume →
      q.get_min_time_delta ts < cfg.optimistic_before_us →
      q.get_max_time_delta ts < cfg.optimistic_after_us →
      expansionLoop cfg volume ts q =
        expansionLoop cfg volume ts (q.expand_time_bounds (min_expand q ts) TIME_STEP) ∧
      (PRE_SCALING_DIFF ≤ q.get_max_time_delta ts →
        (q.expand_time_bounds (min_expand q ts) TIME_STEP).beforeDelta =
          q.beforeDelta + TIME_STEP ∧
        (q.expand_time_bounds (min_expand q ts) TIME_STEP).afterDelta =
          q.afterDelta + TIME_STEP) ∧
      (q.get_max_time_delta ts < PRE_SCALING_DIFF →
        (q.expand_time_bounds (min_expand q ts) TIME_STEP).beforeDelta = q.beforeDelta ∧
        (q.expand_time_bounds (min_expand q ts) TIME_STEP).afterDelta =
          q.afterDelta + TIME_STEP)) := by
  refine ⟨?_, ?_, ?_⟩
  · intro hv
    rw [expansionLoop, loopFuel]
    simp only [expansionLoopGo]
    rw [if_neg hv]
  · intro hv hb
    rw [expansionLoop, loopFuel]
    simp only [expansionLoopGo]
    rw [if_pos hv, if_pos hb]
  · intro hv hminlt hmaxlt
    refine ⟨?_, ?_, ?_⟩
    · have hnb : ¬(cfg.optimistic_before_us ≤ q.get_min_time_delta ts ∨
          cfg.optimistic_after_us ≤ q.get_max_time_delta ts) := by
        push_neg
        exact ⟨hminlt, hmaxlt⟩
      have hstep : expansionLoop cfg volume ts q =
          expansionLoopGo cfg volume ts (cfg.optimistic_after_us / TIME_STEP)
            (q.expand_time_bounds (min_expand q ts) TIME_STEP) := by
        rw [expansionLoop, loopFuel]
        simp only [expansionLoopGo]
        rw [if_pos hv, if_neg hnb]
      rw [hstep, expansionLoop, loopFuel]
      symm
      apply expansionLoopGo_stable
      have hd := Nat.div_add_mod cfg.optimistic_after_us TIME_STEP
      have hm : cfg.optimistic_after_us % TIME_STEP < TIME_STEP :=
        Nat.mod_lt _ (by norm_num [TIME_STEP])
      simp only [TimeBasketQueue.expand_time_bounds]
      simp only [TIME_STEP] at hd hm ⊢
      omega
    · intro hge
      simp [TimeBasketQueue.expand_time_bounds, min_expand, hge]
    · intro hlt
      simp [TimeBasketQueue.expand_time_bounds, min_expand, not_le.mpr hlt]

/-- Witness for claim C5: a queue already at sufficient volume is left alone,
and an under-volume queue with max delta at `PRE_SCALING_DIFF` steps by one
expansion of both bounds. -/
theorem claimC5_witness :
    expansionLoop fixCfg 1 1000000 fixQFull = fixQFull ∧
    expansionLoop fixCfg 1 1000000 fixQ0 =
      expansionLoop fixCfg 1 1000000
        (fixQ0.expand_time_bounds (min_expand fixQ0 1000000) TIME_STEP) ∧
    (fixQ0.expand_time_bounds (min_expand fixQ0 1000000) TIME_STEP).beforeDelta =
      fixQ0.beforeDelta + TIME_STEP ∧
    (fixQ0.expand_time_bounds (min_expand fixQ0 1000000) TIME_STEP).afterDelta =
      fixQ0.afterDelta + TIME_STEP :=
  ⟨(claimC5 fixCfg 1 1000000 fixQFull).1 (by with_unfolding_all decide),
   ((claimC5 fixCfg 1 1000000 fixQ0).2.2 (by with_unfolding_all decide) (by decide)
     (by decide)).1,
   (((claimC5 fixCfg 1 1000000 fixQ0).2.2 (by with_unfolding_all decide) (by decide)
     (by decide)).2.1 (by decide)).1,
   (((claimC5 fixCfg 1 1000000 fixQ0).2.2 (by with_unfolding_all decide) (by decide)
     (by decide)).2.1 (by decide)).2⟩

/-- Counterexample to claim C5 as stated: a queue whose maximum time delta is
exactly `PRE_SCALING_DIFF` has not strictly exceeded that bound, so on the
claimed reading only the far side would expand; the code nevertheless picks
`min_expand = TIME_STEP` and widens the pre-block bound too, because the source
comparison is non-strict. -/
theorem claimC5_counterexample :
    fixQ0.get_max_time_delta 1000000 = PRE_SCALING_DIFF ∧
    min_expand fixQ0 1000000 = TIME_STEP ∧
    (fixQ0.expand_time_bounds (min_expand fixQ0 1000000) TIME_STEP).beforeDelta =
      fixQ0.beforeDelta + TIME_STEP ∧
    fixQ0.volume < 1 ∧
    fixQ0.get_min_time_delta 1000000 < fixCfg.optimistic_before_us ∧
    fixQ0.get_max_time_delta 1000000 < fixCfg.optimistic_after_us ∧
    expansionLoop fixCfg 1 1000000 fixQ0 =
      expansionLoop fixCfg 1 1000000 (fixQ0.expand_time_bounds TIME_STEP TIME_STEP) := by
  refine ⟨by decide, by decide, by decide, ?_, by decide, by decide, ?_⟩
  · with_unfolding_all decide
  · with_unfolding_all rfl

theorem ExchangePrice_mul_final_price (a b : ExchangePrice) :
    (a * b).final_price = a.final_price * b.final_price := rfl

theorem ExchangePrice_mul_trades_used (a b : ExchangePrice) :
    (a * b).trades_used = a.trades_used ++ b.trades_used := rfl

theorem ExchangePrice_mul_pairs (a b : ExchangePrice) :
    (a * b).pairs = a.pairs ++ b.pairs := rfl

/-- Claim C3: when intermediary routing returns a route, some candidate
intermediary produced it by pricing the first leg (pair.0, I) at the requested
volume and the second leg (I, pair.1) at the requested volume times the first
leg maker final price; the composed maker and taker are the leg products, with
final prices multiplied and `trades_used` and `pairs` concatenated; and the
returned route has the maximum maker final price among all successfully
composed candidates. -/
theorem claimC3 (env : ExternEnv) (cfg : CexDexTradeConfig) (st : SortedTrades)
    (block_timestamp : Nat) (pair : Pair) (volume : ℚ) (bypass_vol : Bool)
    (quality : Option QualityMap) (mk tk : ExchangePrice)
    (h : get_optimistic_via_intermediary env cfg st block_timestamp pair volume bypass_vol
        quality = some (mk, tk)) :
    ∃ intermediary ∈ calculate_intermediary_addresses st pair,
      ∃ fl sl : MakerTaker,
        get_optimistic_direct env cfg st block_timestamp ⟨pair.fst, intermediary⟩ volume
            (bypass_vol || is_usdc_usdt_pair ⟨pair.fst, intermediary⟩) quality = some fl ∧
        get_optimistic_direct env cfg st block_timestamp ⟨intermediary, pair.snd⟩
            (volume * fl.1.final_price)
            (bypass_vol || is_usdc_usdt_pair ⟨intermediary, pair.snd⟩) quality = some sl ∧
        mk = fl.1 * sl.1 ∧
        tk = fl.2 * sl.2 ∧
        mk.final_price = fl.1.final_price * sl.1.final_price ∧
        mk.trades_used = fl.1.trades_used ++ sl.1.trades_used ∧
        mk.pairs = fl.1.pairs ++ sl.1.pairs ∧
        (∀ other ∈ calculate_intermediary_addresses st pair, ∀ mk2 tk2 : ExchangePrice,
          viaIntermediaryCandidate env cfg st block_timestamp pair volume bypass_vol quality
              other = some (mk2, tk2) →
          mk2.final_price ≤ mk.final_price) := by
  have hmem := maxByKey_mem (fun a : MakerTaker => a.1.final_price) _ _ h
  rw [List.mem_filterMap] at hmem
  obtain ⟨I, hI, hcand⟩ := hmem
  refine ⟨I, hI, ?_⟩
  rw [viaIntermediaryCandidate] at hcand
  dsimp only at hcand
  cases h0 : get_optimistic_direct env cfg st block_timestamp ⟨pair.fst, I⟩ volume
      (bypass_vol || is_usdc_usdt_pair ⟨pair.fst, I⟩) quality with
  | none =>
    rw [h0] at hcand
    cases hcand
  | some fl =>
    rw [h0] at hcand
    dsimp only at hcand
    cases h1 : get_optimistic_direct env cfg st block_timestamp ⟨I, pair.snd⟩
        (volume * fl.1.final_price)
        (bypass_vol || is_usdc_usdt_pair ⟨I, pair.snd⟩) quality with
    | none =>
      rw [h1] at hcand
      cases hcand
    | some sl =>
      rw [h1] at hcand
      dsimp only at hcand
      simp only [Option.some.injEq, Prod.mk.injEq] at hcand
      obtain ⟨hmk, htk⟩ := hcand
      refine ⟨fl, sl, rfl, h1, hmk.symm, htk.symm, ?_, ?_, ?_, ?_⟩
      · rw [← hmk]
        exact ExchangePrice_mul_final_price fl.1 sl.1
      · rw [← hmk]
        exact ExchangePrice_mul_trades_used fl.1 sl.1
      · rw [← hmk]
        exact ExchangePrice_mul_pairs fl.1 sl.1
      · intro other hother mk2 tk2 hc2
        have hmem2 : (mk2, tk2) ∈ (calculate_intermediary_addresses st pair).filterMap
            (viaIntermediaryCandidate env cfg st block_timestamp pair volume bypass_vol
              quality) :=
          List.mem_filterMap.mpr ⟨other, hother, hc2⟩
        exact maxByKey_isMax (fun a : MakerTaker => a.1.final_price) _ _ h (mk2, tk2) hmem2

/-- Witness for claim C3: on the fixture store the route through WETH is
returned, with maker final price twenty-one equal to three times seven. -/
theorem claimC3_witness :
    get_optimistic_via_intermediary fixEnv fixCfg fixSt fixT ⟨fixA, fixB⟩ 1 false none =
      some (fixMaker, fixTaker) ∧
    (∃ intermediary ∈ calculate_intermediary_addresses fixSt ⟨fixA, fixB⟩,
      ∃ fl sl : MakerTaker,
        get_optimistic_direct fixEnv fixCfg fixSt fixT ⟨fixA, intermediary⟩ 1
            (false || is_usdc_usdt_pair ⟨fixA, intermediary⟩) none = some fl ∧
        get_optimistic_direct fixEnv fixCfg fixSt fixT ⟨intermediary, fixB⟩
            (1 * fl.1.final_price) (false || is_usdc_usdt_pair ⟨intermediary, fixB⟩) none =
          some sl ∧
        fixMaker = fl.1 * sl.1 ∧
        fixTaker = fl.2 * sl.2 ∧
        fixMaker.final_price = fl.1.final_price * sl.1.final_price ∧
        fixMaker.trades_used = fl.1.trades_used ++ sl.1.trades_used ∧
        fixMaker.pairs = fl.1.pairs ++ sl.1.pairs ∧
        (∀ other ∈ calculate_intermediary_addresses fixSt ⟨fixA, fixB⟩,
          ∀ mk2 tk2 : ExchangePrice,
            viaIntermediaryCandidate fixEnv fixCfg fixSt fixT ⟨fixA, fixB⟩ 1 false none
                other = some (mk2, tk2) →
            mk2.final_price ≤ fixMaker.final_price)) :=
  ⟨by with_unfolding_all rfl,
   claimC3 fixEnv fixCfg fixSt fixT ⟨fixA, fixB⟩ 1 false none fixMaker fixTaker
     (by with_unfolding_all rfl)⟩

end Brontes
